import Mathlib

/-!
# kuetix/container: the registry (container.go) and the bootstrap gate (bootstrap.go)

A shallow embedding of the package-level registry of `container.go` and of
the bootstrap gate of `bootstrap.go`, and the proofs of their contract.

Modelling decisions, each taken from the source:

* The three package variables `ParametersContainer`, `SingletonContainer` and
  `FactoryContainer` are Go maps keyed by `string`.  `init()` allocates all
  three before any caller runs and `Reset()` reallocates them, and no function
  of the package assigns `nil` to them, so a store is a total lookup function
  `String → Option T` (`none` is Go's `exists == false`).
* `interface{}` values are an arbitrary type `V`.
* A `FactoryFunc` is a Go closure `func() interface{}`.  It is embedded as a
  state-passing function over the environment `Env` it closes over (a counter,
  for instance): it returns its outcome together with the environment it
  leaves behind.  A constructor may panic; the environment it leaves is kept
  in that case too.  In `State` constructors act on their own environment
  only; constructors that call back into the package are the subject of
  `World` further down, of which `State` is the special case
  (`closed_constructors_agree`).
* A Go call either returns or panics.  Every operation returns its `Outcome`
  together with the state it leaves, because a panic does not roll anything
  back.
* The `sync.RWMutex` lock and unlock calls bracket single map reads and
  writes; the embedding is the sequential semantics and leaves them out.
* `bootstrap.go` declares `initOnce` (initially `false`) and
  `DependencyInjection`, a `map[string]func(string)` that is `nil` until
  `Boot()` allocates it and `nil` again after `ResetBootstrap()`: the mapping
  is an `Option` of a store, `none` being the nil map.
* A registered callback `func(string)` is, in `Package`, a state-passing
  function on the registry state (containers and closure environment): it may
  call into the registry.  Callbacks that touch the gate itself (`initOnce`,
  `DependencyInjection`) are the subject of `World` further down, of which
  `Package` is the special case (`closed_callbacks_agree`).
* Go leaves the order of `range` over a map unspecified.  The order is an
  argument of `DependencyInjectionBoot`, and `RangeOrder` says which orders
  the runtime may choose: every key of the map exactly once.
-/

namespace Container

/-- Values a Go `panic` carries in this package: the `error` built by
`fmt.Errorf` in the getters, whatever a caller-supplied constructor or
callback raises, or a run-time error of the Go runtime (a write to a nil
map). -/
inductive Panic (E : Type) where
  | errorf (msg : String)
  | raised (e : E)
  | runtimeError (msg : String)
  deriving DecidableEq, Repr

/-- Result of a Go call: `.ok v` on return, `.error p` on panic. -/
abbrev Outcome (E : Type) (α : Type) := Except (Panic E) α

/-- Go `map[string]T` that has been allocated with `make`. -/
abbrev GoMap (T : Type) := String → Option T

/-- Go `make(map[string]T)`: the map with no entries. -/
def GoMap.make {T : Type} : GoMap T := fun _ => none

/-- Go `m[key] = value`. -/
def GoMap.assign {T : Type} (m : GoMap T) (key : String) (value : T) : GoMap T :=
  fun k => if k = key then some value else m k

/-- Go `type FactoryFunc func() interface{}`, as a function on the
environment the closure captures. -/
abbrev FactoryFunc (V E Env : Type) := Env → Outcome E V × Env

/-- Package state: the three containers, and the environment the registered
closures act on. -/
structure State (V E Env : Type) where
  ParametersContainer : GoMap V
  SingletonContainer : GoMap V
  FactoryContainer : GoMap (FactoryFunc V E Env)
  env : Env

variable {V E Env : Type}

/-- Go `init()`: all three containers allocated empty. -/
def init (env : Env) : State V E Env :=
  { ParametersContainer := GoMap.make
    SingletonContainer := GoMap.make
    FactoryContainer := GoMap.make
    env := env }

/-- Go `Get`: the singleton if there is one, else the factory's fresh result,
else a panic. -/
def Get (key : String) (s : State V E Env) : Outcome E V × State V E Env :=
  match s.SingletonContainer key with
  | some value => (.ok value, s)
  | none =>
    match s.FactoryContainer key with
    | some factory =>
      let r := factory s.env
      (r.1, { s with env := r.2 })
    | none => (.error (.errorf ("key " ++ key ++ " not found in any container")), s)

/-- Go `Fetch`. -/
def Fetch (key : String) (s : State V E Env) : Outcome E V × State V E Env :=
  match s.SingletonContainer key with
  | none => (.error (.errorf ("singleton " ++ key ++ " not found in any container")), s)
  | some value => (.ok value, s)

/-- Go `Resolve`. -/
def Resolve (key : String) (s : State V E Env) : Outcome E V × State V E Env :=
  match s.FactoryContainer key with
  | none => (.error (.errorf ("factory " ++ key ++ " not found in any container")), s)
  | some factory =>
    let r := factory s.env
    (r.1, { s with env := r.2 })

/-- Go `ToFetch`. -/
def ToFetch (key : String) (value : V) (s : State V E Env) :
    Outcome E Unit × State V E Env :=
  (.ok (), { s with SingletonContainer := s.SingletonContainer.assign key value })

/-- Go `ToFetchFunc`: `v := value()` runs first; when it panics the
assignment is never reached. -/
def ToFetchFunc (key : String) (value : FactoryFunc V E Env) (s : State V E Env) :
    Outcome E Unit × State V E Env :=
  let r := value s.env
  match r.1 with
  | .error p => (.error p, { s with env := r.2 })
  | .ok v =>
    (.ok (), { s with SingletonContainer := s.SingletonContainer.assign key v, env := r.2 })

/-- Go `ToResolve`. -/
def ToResolve (key : String) (factory : FactoryFunc V E Env) (s : State V E Env) :
    Outcome E Unit × State V E Env :=
  (.ok (), { s with FactoryContainer := s.FactoryContainer.assign key factory })

/-- Go `ToParameter`. -/
def ToParameter (key : String) (value : V) (s : State V E Env) :
    Outcome E Unit × State V E Env :=
  (.ok (), { s with ParametersContainer := s.ParametersContainer.assign key value })

/-- Go `Parameter`. -/
def Parameter (key : String) (s : State V E Env) : Outcome E V × State V E Env :=
  match s.ParametersContainer key with
  | none => (.error (.errorf ("parameter " ++ key ++ " not found in any container")), s)
  | some value => (.ok value, s)

/-- Go `Has`: the singleton store, then the factory store only if that
missed, then the parameter store only if both missed. -/
def Has (name : String) (s : State V E Env) : Bool :=
  let found₀ := (s.SingletonContainer name).isSome
  let found₁ := if !found₀ then (s.FactoryContainer name).isSome else found₀
  let found₂ := if !found₁ then (s.ParametersContainer name).isSome else found₁
  found₂

/-- Go `HasParameter`. -/
def HasParameter (key : String) (s : State V E Env) : Bool :=
  (s.ParametersContainer key).isSome

/-- Go `CanFetch`. -/
def CanFetch (name : String) (s : State V E Env) : Bool :=
  (s.SingletonContainer name).isSome

/-- Go `CanResolve`. -/
def CanResolve (key : String) (s : State V E Env) : Bool :=
  (s.FactoryContainer key).isSome

/-- Go `Reset`: the three containers are replaced by fresh empty maps. -/
def Reset (s : State V E Env) : Outcome E Unit × State V E Env :=
  (.ok (),
    { s with
      ParametersContainer := GoMap.make
      SingletonContainer := GoMap.make
      FactoryContainer := GoMap.make })

/-- A call panicked. -/
def panicked {α σ : Type} (r : Outcome E α × σ) : Bool :=
  match r.1 with
  | .error _ => true
  | .ok _ => false

/-- Run the same call `n` times in a row, threading the state; the outcomes
are listed in call order. -/
def callTimes {ρ σ : Type} (op : σ → ρ × σ) : Nat → σ → List ρ × σ
  | 0, s => ([], s)
  | n + 1, s =>
    let r := op s
    let rest := callTimes op n r.2
    (r.1 :: rest.1, rest.2)

/-- Go `int` arithmetic on a 64-bit target: the mathematical result wrapped
into the two's-complement range. -/
def wrapInt (n : Int) : Int := (n + 2 ^ 63) % 2 ^ 64 - 2 ^ 63

/-- The counting constructor of `TestToResolveAndResolve`,
`func() interface{} { count++; return count }`.  The captured `count` is the
first component of the environment; `box` is the conversion of a Go `int` to
`interface{}`. -/
def counter {R : Type} (box : Int → V) : FactoryFunc V E (Int × R) :=
  fun e =>
    let count := wrapInt (e.1 + 1)
    (.ok (box count), (count, e.2))

/-- A constructor together with a tally of its invocations: every call runs
`c` on the first component and adds one to the second. -/
def counted (c : FactoryFunc V E Env) : FactoryFunc V E (Env × Nat) :=
  fun e =>
    let r := c e.1
    (r.1, (r.2, e.2 + 1))

/-- The registry `TestHasAndCanChecks` builds: singleton "s" = 1, a factory
under "f" returning 2, parameter "p" = 3. -/
def testRegistry : State Int Unit Unit :=
  (ToParameter "p" 3
    (ToResolve "f" (fun e => (.ok 2, e))
      (ToFetch "s" 1 (init ())).2).2).2

/-! ## The bootstrap gate (bootstrap.go) -/

/-- A registered callback, Go `func(string)`: it receives a name and acts on
the registry state. -/
abbrev BootFunc (V E Env : Type) := String → State V E Env → Outcome E Unit × State V E Env

/-- Whole package state: the registry of `container.go` and the two variables
of `bootstrap.go`.  `DependencyInjection = none` is the nil map. -/
structure Package (V E Env : Type) where
  registry : State V E Env
  initOnce : Bool
  DependencyInjection : Option (GoMap (BootFunc V E Env))

/-- Package state at program start: `init()` has run, `initOnce` is `false`
and `DependencyInjection` is nil. -/
def Package.initial (env : Env) : Package V E Env :=
  { registry := init env
    initOnce := false
    DependencyInjection := none }

/-- A function of `container.go` run in the whole package state: it sees and
changes the registry only. -/
def onRegistry {α : Type} (op : State V E Env → α × State V E Env) (p : Package V E Env) :
    α × Package V E Env :=
  let r := op p.registry
  (r.1, { p with registry := r.2 })

/-- Go `Boot`. -/
def Boot (p : Package V E Env) : Outcome E Unit × Package V E Env :=
  if p.initOnce then
    (.ok (), p)
  else
    (.ok (), { p with DependencyInjection := some GoMap.make, initOnce := true })

/-- Go `Booted`. -/
def Booted (p : Package V E Env) : Bool :=
  p.initOnce

/-- Go `ResetBootstrap`. -/
def ResetBootstrap (p : Package V E Env) : Outcome E Unit × Package V E Env :=
  (.ok (), { p with initOnce := false, DependencyInjection := none })

/-- Go `_, ok := DependencyInjection[name]`: reading a nil map finds
nothing. -/
def registered (name : String) (p : Package V E Env) : Option (BootFunc V E Env) :=
  match p.DependencyInjection with
  | none => none
  | some m => m name

/-- Go `DependencyInjection[name] = boot`, the statement callers register a
callback with: a write to a nil map is a run-time panic. -/
def register (name : String) (boot : BootFunc V E Env) (p : Package V E Env) :
    Outcome E Unit × Package V E Env :=
  match p.DependencyInjection with
  | none => (.error (.runtimeError "assignment to entry in nil map"), p)
  | some m => (.ok (), { p with DependencyInjection := some (m.assign name boot) })

/-- The orders in which Go's `range` may yield the keys of `m`: every key of
`m` exactly once, and nothing else. -/
def RangeOrder {T : Type} (m : GoMap T) (order : List String) : Prop :=
  order.Nodup ∧ ∀ k, k ∈ order ↔ (m k).isSome

/-- The loop `for name, boot := range m { boot(name) }` with the keys yielded
in the order `order`: a panic of a callback ends the loop. -/
def rangeBoot (m : GoMap (BootFunc V E Env)) :
    List String → State V E Env → Outcome E Unit × State V E Env
  | [], st => (.ok (), st)
  | name :: rest, st =>
    match m name with
    | none => rangeBoot m rest st
    | some boot =>
      let r := boot name st
      match r.1 with
      | .error e => (.error e, r.2)
      | .ok _ => rangeBoot m rest r.2

/-- Go `DependencyInjectionBoot`; `order` is the order the runtime yields the
keys in.  A `range` over the nil map runs zero iterations. -/
def DependencyInjectionBoot (order : List String) (p : Package V E Env) :
    Outcome E Unit × Package V E Env :=
  match p.DependencyInjection with
  | none => (.ok (), p)
  | some m =>
    let r := rangeBoot m order p.registry
    (r.1, { p with registry := r.2 })

/-- The callbacks registered in `m` under the names of `order` invoked one
after the other, each with its own registration name, whatever they return;
the result is the registry state they leave. -/
def invokeEach (m : GoMap (BootFunc V E Env)) : List String → State V E Env → State V E Env
  | [], st => st
  | name :: rest, st =>
    match m name with
    | none => invokeEach m rest st
    | some boot => invokeEach m rest (boot name st).2

/-- A callback that appends the pair of the name it was registered under
(`tag`) and the name it is invoked with to a log kept in the environment, and
then returns (`fail = none`) or panics with `e` (`fail = some e`). -/
def stamp (tag : String) (fail : Option E) : BootFunc V E (List (String × String)) :=
  fun name st =>
    (match fail with
      | none => .ok ()
      | some e => .error (.raised e),
     { st with env := st.env ++ [(tag, name)] })

/-- An operation on the package that a caller can perform. -/
inductive GateOp (V E Env : Type) where
  | callBoot
  | callResetBootstrap
  | callDependencyInjectionBoot (order : List String)
  | assignEntry (name : String) (cb : BootFunc V E Env)
  | registryCall (f : State V E Env → State V E Env)

/-- The state one operation leaves, its outcome dropped: a panic does not
undo what was done before it. -/
def GateOp.run : GateOp V E Env → Package V E Env → Package V E Env
  | .callBoot, p => (Boot p).2
  | .callResetBootstrap, p => (ResetBootstrap p).2
  | .callDependencyInjectionBoot order, p => (DependencyInjectionBoot order p).2
  | .assignEntry name cb, p => (register name cb p).2
  | .registryCall f, p => { p with registry := f p.registry }

/-- The state a sequence of operations leaves. -/
def runOps (ops : List (GateOp V E Env)) (p : Package V E Env) : Package V E Env :=
  ops.foldl (fun q op => op.run q) p

/-- The state of `TestDependencyInjectionBootInvokesRegistered` before the
drain: reset, booted, and "one" and "two" registered with logging
callbacks. -/
def testGate : Package Int Unit (List (String × String)) :=
  (register "two" (stamp "two" none)
    (register "one" (stamp "one" none)
      (Boot (ResetBootstrap (Package.initial [])).2).2).2).2

/-- A booted gate with three logging callbacks of which the one registered
under "two" panics. -/
def testGateFailing : Package Int Unit (List (String × String)) :=
  (register "three" (stamp "three" none)
    (register "two" (stamp "two" (some ()))
      (register "one" (stamp "one" none)
        (Boot (ResetBootstrap (Package.initial [])).2).2).2).2).2

/-- The gate invariant: the flag is set exactly when the mapping is not
nil. -/
def GateInv (p : Package V E Env) : Prop :=
  p.initOnce = true ↔ p.DependencyInjection.isSome = true

/-! ## Closures that reach the package state

`container.go` calls `factory()` and `value()` with every lock released, and
`bootstrap.go` calls `boot(name)` in the middle of its loop, so a closure may
call back into the package.  In `World` a closure is a name (`F` for
constructors, `B` for callbacks) and `Closures` says what invoking a name
does to the whole package state.  `State` and `Package` above are the case
in which a constructor acts on its environment only and a callback on the
registry only.

The loop of `DependencyInjectionBoot` keeps the map object it started on
while callbacks run, so `DependencyInjection` is a reference into a heap of
map objects: a callback may write the object in place (seen by the running
loop) or make the variable refer to another object or to nil (not seen by
it).  The three registry maps are read and written one access at a time
through their variables, so they stay plain values. -/

/-- Whole package state for closures that may reach all of it.  `maps` is the
heap of callback map objects, `allocated` the next free address, and
`DependencyInjection` the address the variable holds, `none` for nil. -/
structure World (V F B Env : Type) where
  ParametersContainer : GoMap V
  SingletonContainer : GoMap V
  FactoryContainer : GoMap F
  initOnce : Bool
  DependencyInjection : Option Nat
  maps : Nat → GoMap B
  allocated : Nat
  env : Env

/-- What invoking a closure does: a constructor `func() interface{}` and a
callback `func(string)`, each as a function on the whole package state. -/
structure Closures (V E F B Env : Type) where
  callFactory : F → World V F B Env → Outcome E V × World V F B Env
  callBoot : B → String → World V F B Env → Outcome E Unit × World V F B Env

variable {F B : Type}

/-- The registry part of a package state whose stored constructors are
functions on the environment. -/
def World.registry (w : World V (FactoryFunc V E Env) B Env) : State V E Env :=
  { ParametersContainer := w.ParametersContainer
    SingletonContainer := w.SingletonContainer
    FactoryContainer := w.FactoryContainer
    env := w.env }

/-- The package state with its registry part replaced. -/
def World.withRegistry (w : World V (FactoryFunc V E Env) B Env) (s : State V E Env) :
    World V (FactoryFunc V E Env) B Env :=
  { w with
    ParametersContainer := s.ParametersContainer
    SingletonContainer := s.SingletonContainer
    FactoryContainer := s.FactoryContainer
    env := s.env }

/-- Package state at program start. -/
def World.initial (env : Env) : World V F B Env :=
  { ParametersContainer := GoMap.make
    SingletonContainer := GoMap.make
    FactoryContainer := GoMap.make
    initOnce := false
    DependencyInjection := none
    maps := fun _ => GoMap.make
    allocated := 0
    env := env }

/-- Go `Get`, the constructor free to reach the package state. -/
def Reentrant.Get (sem : Closures V E F B Env) (key : String) (w : World V F B Env) :
    Outcome E V × World V F B Env :=
  match w.SingletonContainer key with
  | some value => (.ok value, w)
  | none =>
    match w.FactoryContainer key with
    | some factory => sem.callFactory factory w
    | none => (.error (.errorf ("key " ++ key ++ " not found in any container")), w)

/-- Go `Resolve`, the constructor free to reach the package state. -/
def Reentrant.Resolve (sem : Closures V E F B Env) (key : String) (w : World V F B Env) :
    Outcome E V × World V F B Env :=
  match w.FactoryContainer key with
  | none => (.error (.errorf ("factory " ++ key ++ " not found in any container")), w)
  | some factory => sem.callFactory factory w

/-- Go `ToFetch` on the whole package state. -/
def Reentrant.ToFetch (key : String) (value : V) (w : World V F B Env) :
    Outcome E Unit × World V F B Env :=
  (.ok (), { w with SingletonContainer := w.SingletonContainer.assign key value })

/-- Go `ToFetchFunc`, the constructor free to reach the package state: the
assignment is made in the state `value()` leaves, and is not reached when it
panics. -/
def Reentrant.ToFetchFunc (sem : Closures V E F B Env) (key : String) (value : F)
    (w : World V F B Env) : Outcome E Unit × World V F B Env :=
  let r := sem.callFactory value w
  match r.1 with
  | .error p => (.error p, r.2)
  | .ok v => (.ok (), { r.2 with SingletonContainer := r.2.SingletonContainer.assign key v })

/-- Go `ToResolve` on the whole package state. -/
def Reentrant.ToResolve (key : String) (factory : F) (w : World V F B Env) :
    Outcome E Unit × World V F B Env :=
  (.ok (), { w with FactoryContainer := w.FactoryContainer.assign key factory })

/-- Go `CanFetch` on the whole package state. -/
def Reentrant.CanFetch (name : String) (w : World V F B Env) : Bool :=
  (w.SingletonContainer name).isSome

/-- Go `Boot` on the whole package state: `make` allocates a new map
object. -/
def Reentrant.Boot (w : World V F B Env) : Outcome E Unit × World V F B Env :=
  if w.initOnce then
    (.ok (), w)
  else
    (.ok (),
      { w with
        maps := fun a => if a = w.allocated then GoMap.make else w.maps a
        DependencyInjection := some w.allocated
        allocated := w.allocated + 1
        initOnce := true })

/-- Go `Booted` on the whole package state. -/
def Reentrant.Booted (w : World V F B Env) : Bool :=
  w.initOnce

/-- Go `ResetBootstrap` on the whole package state. -/
def Reentrant.ResetBootstrap (w : World V F B Env) : Outcome E Unit × World V F B Env :=
  (.ok (), { w with initOnce := false, DependencyInjection := none })

/-- Go `_, ok := DependencyInjection[name]` on the whole package state. -/
def Reentrant.registered (name : String) (w : World V F B Env) : Option B :=
  match w.DependencyInjection with
  | none => none
  | some r => w.maps r name

/-- Go `DependencyInjection[name] = boot` on the whole package state: the map
object is written in place; a write to the nil map is a run-time panic. -/
def Reentrant.register (name : String) (boot : B) (w : World V F B Env) :
    Outcome E Unit × World V F B Env :=
  match w.DependencyInjection with
  | none => (.error (.runtimeError "assignment to entry in nil map"), w)
  | some r =>
    (.ok (), { w with maps := fun a => if a = r then (w.maps r).assign name boot else w.maps a })

/-- The loop `for name, boot := range m { boot(name) }` over the map object at
address `r`, the keys yielded in the order `order`.  A key whose entry is no
longer in the object when its turn comes is not produced; a panic of a
callback ends the loop. -/
def Reentrant.rangeBoot (sem : Closures V E F B Env) (r : Nat) :
    List String → World V F B Env → Outcome E Unit × World V F B Env
  | [], w => (.ok (), w)
  | name :: rest, w =>
    match w.maps r name with
    | none => Reentrant.rangeBoot sem r rest w
    | some boot =>
      let res := sem.callBoot boot name w
      match res.1 with
      | .error e => (.error e, res.2)
      | .ok _ => Reentrant.rangeBoot sem r rest res.2

/-- Go `DependencyInjectionBoot` on the whole package state: the loop runs
over the map object the variable refers to when the loop starts. -/
def Reentrant.DependencyInjectionBoot (sem : Closures V E F B Env) (order : List String)
    (w : World V F B Env) : Outcome E Unit × World V F B Env :=
  match w.DependencyInjection with
  | none => (.ok (), w)
  | some r => Reentrant.rangeBoot sem r order w

/-- The callbacks `m` holds under the names of `order` invoked one after the
other, each with its own registration name, whatever they return; the result
is the package state they leave. -/
def Reentrant.invokeEach (sem : Closures V E F B Env) (m : GoMap B) :
    List String → World V F B Env → World V F B Env
  | [], w => w
  | name :: rest, w =>
    match m name with
    | none => Reentrant.invokeEach sem m rest w
    | some boot => Reentrant.invokeEach sem m rest (sem.callBoot boot name w).2

/-- The second state has the three stores of the first. -/
def SameStores (u v : World V F B Env) : Prop :=
  v.ParametersContainer = u.ParametersContainer ∧
  v.SingletonContainer = u.SingletonContainer ∧
  v.FactoryContainer = u.FactoryContainer

/-- The second state has the gate of the first: the flag, the address
`DependencyInjection` holds, and the map objects. -/
def SameGate (u v : World V F B Env) : Prop :=
  v.initOnce = u.initOnce ∧
  v.DependencyInjection = u.DependencyInjection ∧
  v.maps = u.maps ∧
  v.allocated = u.allocated

/-- Constructors of the examples:
`returns r` is `func() interface{} { return r }`;
`registers key v r` is
`func() interface{} { container.ToFetch(key, v); return r }`;
`registersThenPanics key v` is
`func() interface{} { container.ToFetch(key, v); panic(...) }`;
`counts` is `func() interface{} { count++; return count }`;
`panics` is `func() interface{} { panic(...) }`. -/
inductive DemoFactory where
  | returns (result : Int)
  | panics
  | registers (key : String) (stored : Int) (result : Int)
  | registersThenPanics (key : String) (stored : Int)
  | counts
  deriving DecidableEq, Repr

/-- Callbacks of the examples: `logs tag` appends the pair of `tag` and the
name it receives to a log; `resets tag` does the same and then calls
`container.ResetBootstrap()`. -/
inductive DemoBoot where
  | logs (tag : String)
  | resets (tag : String)
  deriving DecidableEq, Repr

/-- What the example closures do.  The environment is the counter of `counts`
and the log of the callbacks. -/
def demoClosures : Closures Int Unit DemoFactory DemoBoot (Int × List (String × String)) where
  callFactory c w :=
    match c with
    | .returns result => (.ok result, w)
    | .panics => (.error (.raised ()), w)
    | .registers key stored result =>
      (.ok result, (Reentrant.ToFetch key stored w : Outcome Unit Unit × _).2)
    | .registersThenPanics key stored =>
      (.error (.raised ()), (Reentrant.ToFetch key stored w : Outcome Unit Unit × _).2)
    | .counts =>
      (.ok (wrapInt (w.env.1 + 1)), { w with env := (wrapInt (w.env.1 + 1), w.env.2) })
  callBoot b name w :=
    match b with
    | .logs tag => (.ok (), { w with env := (w.env.1, w.env.2 ++ [(tag, name)]) })
    | .resets tag =>
      (.ok (),
        (Reentrant.ResetBootstrap { w with env := (w.env.1, w.env.2 ++ [(tag, name)]) } :
          Outcome Unit Unit × _).2)

/-- A registry whose factory under "k" registers the singleton "k" = 99 and
returns 7. -/
def demoSelfRegistering : World Int DemoFactory DemoBoot (Int × List (String × String)) :=
  (Reentrant.ToResolve "k" (.registers "k" 99 7) (World.initial (0, [])) :
    Outcome Unit Unit × _).2

/-- A registry whose factory under "k" registers the singleton "other" = 2
and then panics. -/
def demoFailing : World Int DemoFactory DemoBoot (Int × List (String × String)) :=
  (Reentrant.ToResolve "k" (.registersThenPanics "other" 2) (World.initial (0, [])) :
    Outcome Unit Unit × _).2

/-- A booted gate with the callback "x" that calls `ResetBootstrap()`. -/
def demoResetting : World Int DemoFactory DemoBoot (Int × List (String × String)) :=
  (Reentrant.register "x" (.resets "x")
    (Reentrant.Boot (World.initial (0, [])) : Outcome Unit Unit × _).2 :
    Outcome Unit Unit × _).2

/-- A booted gate with the logging callbacks "one" and "two", and the factory
"f" returning 2. -/
def demoWorld : World Int DemoFactory DemoBoot (Int × List (String × String)) :=
  (Reentrant.register "two" (.logs "two")
    (Reentrant.register "one" (.logs "one")
      (Reentrant.Boot
        (Reentrant.ToResolve "f" (.returns 2) (World.initial (0, [])) :
          Outcome Unit Unit × _).2 :
        Outcome Unit Unit × _).2 :
      Outcome Unit Unit × _).2 :
    Outcome Unit Unit × _).2

/-! ## Store lemmas -/

theorem GoMap.assign_same {T : Type} (m : GoMap T) (key : String) (value : T) :
    m.assign key value key = some value := by
  simp [GoMap.assign]

theorem GoMap.assign_other {T : Type} (m : GoMap T) (key k : String) (value : T)
    (h : k ≠ key) : m.assign key value k = m k := by
  simp [GoMap.assign, h]

/-! ## Shared lemmas -/

theorem Fetch_of_some (s : State V E Env) (k : String) (v : V)
    (h : s.SingletonContainer k = some v) : Fetch k s = (.ok v, s) := by
  simp [Fetch, h]

theorem Resolve_of_some (s : State V E Env) (k : String) (c : FactoryFunc V E Env)
    (h : s.FactoryContainer k = some c) :
    Resolve k s = ((c s.env).1, { s with env := (c s.env).2 }) := by
  simp [Resolve, h]

theorem Get_of_singleton (s : State V E Env) (k : String) (v : V)
    (h : s.SingletonContainer k = some v) : Get k s = (.ok v, s) := by
  simp [Get, h]

theorem Get_of_factory (s : State V E Env) (k : String) (c : FactoryFunc V E Env)
    (hs : s.SingletonContainer k = none) (hf : s.FactoryContainer k = some c) :
    Get k s = ((c s.env).1, { s with env := (c s.env).2 }) := by
  simp [Get, hs, hf]

theorem wrapInt_one : wrapInt (0 + 1) = 1 := by decide

theorem wrapInt_two : wrapInt (1 + 1) = 2 := by decide

/-- Calling `op` repeatedly when every call returns `v` and leaves the state
alone. -/
theorem callTimes_const {ρ σ : Type} (op : σ → ρ × σ) (s : σ) (v : ρ)
    (h : op s = (v, s)) (n : Nat) : callTimes op n s = (List.replicate n v, s) := by
  induction n with
  | zero => rfl
  | succ n ih => simp [callTimes, h, ih, List.replicate_succ]

/-- Repeated `Resolve` of a registered key is repeated invocation of its
constructor; only the environment moves. -/
theorem callTimes_Resolve (k : String) (c : FactoryFunc V E Env) (n : Nat) :
    ∀ s : State V E Env, s.FactoryContainer k = some c →
      callTimes (Resolve k) n s =
        ((callTimes c n s.env).1, { s with env := (callTimes c n s.env).2 }) := by
  induction n with
  | zero => intro s _; rfl
  | succ n ih =>
    intro s h
    have h1 : ({ s with env := (c s.env).2 } : State V E Env).FactoryContainer k = some c := h
    simp [callTimes, Resolve_of_some s k c h, ih _ h1]

theorem Fetch_state (s : State V E Env) (k : String) : (Fetch k s).2 = s := by
  unfold Fetch
  cases s.SingletonContainer k <;> rfl

/-- Calling `op` repeatedly when no call changes the state. -/
theorem callTimes_state {ρ σ : Type} (op : σ → ρ × σ) (h : ∀ s, (op s).2 = s)
    (n : Nat) (s : σ) : (callTimes op n s).2 = s := by
  induction n with
  | zero => rfl
  | succ n ih => simp [callTimes, h, ih]

/-! ## Lemmas on the callback loop -/

/-- An order of keys holds every key of the map once and no other name. -/
theorem RangeOrder.count_eq {T : Type} {m : GoMap T} {order : List String}
    (h : RangeOrder m order) (name : String) :
    order.count name = if (m name).isSome then 1 else 0 := by
  by_cases hn : (m name).isSome = true
  · rw [if_pos hn]
    exact List.count_eq_one_of_mem h.1 ((h.2 name).2 hn)
  · rw [if_neg hn]
    exact List.count_eq_zero_of_not_mem (fun hmem => hn ((h.2 name).1 hmem))

/-- The loop ends at the first callback that panics: the callbacks before it
have run, it has run, and the loop panics with its panic. -/
theorem rangeBoot_fail (m : GoMap (BootFunc V E Env)) (k : String) (post : List String)
    (cb : BootFunc V E Env) (e : Panic E) (hk : m k = some cb) :
    ∀ (pre : List String) (st : State V E Env),
      (∀ a j b, pre = a ++ j :: b → ∀ cbj, m j = some cbj →
        (cbj j (invokeEach m a st)).1 = .ok ()) →
      (cb k (invokeEach m pre st)).1 = .error e →
      rangeBoot m (pre ++ k :: post) st = (.error e, (cb k (invokeEach m pre st)).2) := by
  intro pre
  induction pre with
  | nil =>
    intro st _ hfail
    have hfail2 : (cb k st).1 = .error e := hfail
    simp only [List.nil_append, rangeBoot, invokeEach, hk, hfail2]
  | cons name rest ih =>
    intro st H hfail
    cases hm : m name with
    | none =>
      simp only [List.cons_append, rangeBoot, invokeEach, hm]
      simp only [invokeEach, hm] at hfail
      apply ih _ _ hfail
      intro a j b hab cbj hcb
      have := H (name :: a) j b (by simp [hab]) cbj hcb
      simpa [invokeEach, hm] using this
    | some boot =>
      have h0 : (boot name st).1 = .ok () := H [] name rest rfl boot hm
      simp only [List.cons_append, rangeBoot, invokeEach, hm, h0]
      simp only [invokeEach, hm] at hfail
      apply ih _ _ hfail
      intro a j b hab cbj hcb
      have := H (name :: a) j b (by simp [hab]) cbj hcb
      simpa [invokeEach, hm] using this

/-- Logging callbacks leave the three stores alone and append one pair of
registration name and argument per invocation, in invocation order. -/
theorem invokeEach_stamp (m : GoMap (BootFunc V E (List (String × String))))
    (f : String → Option E) (hm : ∀ j cb, m j = some cb → cb = stamp j (f j)) :
    ∀ (order : List String) (st : State V E (List (String × String))),
      (∀ j, j ∈ order → (m j).isSome = true) →
      (invokeEach m order st).env = st.env ++ order.map (fun j => (j, j)) := by
  intro order
  induction order with
  | nil => intro st _; simp [invokeEach]
  | cons name rest ih =>
    intro st hreg
    cases hn : m name with
    | none =>
      have := hreg name (by simp)
      simp [hn] at this
    | some boot =>
      have hb := hm name boot hn
      subst hb
      simp only [invokeEach, hn]
      rw [ih _ (fun j hj => hreg j (List.mem_cons_of_mem _ hj))]
      simp [stamp]

/-- Every operation on the package keeps the gate invariant. -/
theorem GateOp.run_inv (op : GateOp V E Env) (p : Package V E Env) (h : GateInv p) :
    GateInv (op.run p) := by
  cases op with
  | callBoot =>
    unfold GateInv at h ⊢
    by_cases hb : p.initOnce = true
    · simpa [GateOp.run, Boot, hb] using h
    · simp [GateOp.run, Boot, hb]
  | callResetBootstrap => simp [GateInv, GateOp.run, ResetBootstrap]
  | callDependencyInjectionBoot order =>
    unfold GateInv at h ⊢
    cases hd : p.DependencyInjection with
    | none => simpa [GateOp.run, DependencyInjectionBoot, hd] using h
    | some m => simpa [GateOp.run, DependencyInjectionBoot, hd] using h
  | assignEntry name cb =>
    unfold GateInv at h ⊢
    cases hd : p.DependencyInjection with
    | none => simpa [GateOp.run, register, hd] using h
    | some m => simpa [GateOp.run, register, hd] using h
  | registryCall f => exact h

/-- A sequence of operations keeps the gate invariant. -/
theorem runOps_inv (ops : List (GateOp V E Env)) :
    ∀ p : Package V E Env, GateInv p → GateInv (runOps ops p) := by
  induction ops with
  | nil => intro p h; exact h
  | cons op rest ih =>
    intro p h
    exact ih (op.run p) (op.run_inv p h)

/-! ## Lemmas on closures that reach the package state -/

theorem SameGate.refl (w : World V F B Env) : SameGate w w :=
  ⟨rfl, rfl, rfl, rfl⟩

theorem SameGate.trans {u v x : World V F B Env} (h₁ : SameGate u v) (h₂ : SameGate v x) :
    SameGate u x :=
  ⟨h₂.1.trans h₁.1, h₂.2.1.trans h₁.2.1, h₂.2.2.1.trans h₁.2.2.1, h₂.2.2.2.trans h₁.2.2.2⟩

/-- The loop over the map object at `r`, when every callback returns and
leaves the gate alone where it is invoked: the loop returns, the state is the
one the callbacks leave one after the other, and the gate is as before. -/
theorem drain_loop_ok (sem : Closures V E F B Env) (r : Nat) (m : GoMap B) :
    ∀ (order : List String) (w : World V F B Env), w.maps r = m →
      (∀ a j b, order = a ++ j :: b → ∀ cb, m j = some cb →
        (sem.callBoot cb j (Reentrant.invokeEach sem m a w)).1 = .ok () ∧
        SameGate (Reentrant.invokeEach sem m a w)
          (sem.callBoot cb j (Reentrant.invokeEach sem m a w)).2) →
      Reentrant.rangeBoot sem r order w = (.ok (), Reentrant.invokeEach sem m order w) ∧
      SameGate w (Reentrant.invokeEach sem m order w) := by
  intro order
  induction order with
  | nil => intro w _ _; exact ⟨rfl, SameGate.refl w⟩
  | cons name rest ih =>
    intro w hw H
    cases hm : m name with
    | none =>
      have hl : w.maps r name = none := by rw [hw]; exact hm
      simp only [Reentrant.rangeBoot, Reentrant.invokeEach, hm, hl]
      apply ih w hw
      intro a j b hab cb hcb
      have := H (name :: a) j b (by simp [hab]) cb hcb
      simpa [Reentrant.invokeEach, hm] using this
    | some boot =>
      have hl : w.maps r name = some boot := by rw [hw]; exact hm
      have h0 := H [] name rest rfl boot hm
      have h1 : (sem.callBoot boot name w).1 = .ok () := h0.1
      have h2 : SameGate w (sem.callBoot boot name w).2 := h0.2
      have hw2 : (sem.callBoot boot name w).2.maps r = m := by rw [h2.2.2.1]; exact hw
      simp only [Reentrant.rangeBoot, Reentrant.invokeEach, hm, hl, h1]
      have hrest := ih (sem.callBoot boot name w).2 hw2 (by
        intro a j b hab cb hcb
        have := H (name :: a) j b (by simp [hab]) cb hcb
        simpa [Reentrant.invokeEach, hm] using this)
      exact ⟨hrest.1, h2.trans hrest.2⟩

/-- Callbacks that only append to the log the name they are registered under
and the name they receive: the log gains one pair per invocation, in
invocation order. -/
theorem invokeEach_log {R : Type} (sem : Closures V E F B (R × List (String × String)))
    (m : GoMap B)
    (hlog : ∀ j b, m j = some b → ∀ name x,
      sem.callBoot b name x = (.ok (), { x with env := (x.env.1, x.env.2 ++ [(j, name)]) })) :
    ∀ (order : List String) (w : World V F B (R × List (String × String))),
      (∀ j, j ∈ order → (m j).isSome = true) →
      (Reentrant.invokeEach sem m order w).env
        = (w.env.1, w.env.2 ++ order.map (fun j => (j, j))) := by
  intro order
  induction order with
  | nil => intro w _; simp [Reentrant.invokeEach]
  | cons name rest ih =>
    intro w hreg
    cases hn : m name with
    | none =>
      have := hreg name (by simp)
      simp [hn] at this
    | some boot =>
      simp only [Reentrant.invokeEach, hn]
      rw [ih _ (fun j hj => hreg j (List.mem_cons_of_mem _ hj)), hlog name boot hn]
      simp

/-- For constructors that act on their environment only, the functions on
the whole package state do to the registry what the functions on `State`
do. -/
theorem closed_constructors_agree (sem : Closures V E (FactoryFunc V E Env) B Env)
    (hsem : ∀ c w, sem.callFactory c w = ((c w.env).1, { w with env := (c w.env).2 }))
    (w : World V (FactoryFunc V E Env) B Env) (k : String) (c : FactoryFunc V E Env) :
    ((Reentrant.Get sem k w).1 = (Get k w.registry).1 ∧
      (Reentrant.Get sem k w).2.registry = (Get k w.registry).2) ∧
    ((Reentrant.Resolve sem k w).1 = (Resolve k w.registry).1 ∧
      (Reentrant.Resolve sem k w).2.registry = (Resolve k w.registry).2) ∧
    ((Reentrant.ToFetchFunc sem k c w).1 = (ToFetchFunc k c w.registry).1 ∧
      (Reentrant.ToFetchFunc sem k c w).2.registry = (ToFetchFunc k c w.registry).2) := by
  refine ⟨?_, ?_, ?_⟩
  · cases hs : w.SingletonContainer k with
    | some v => simp [Reentrant.Get, Get, World.registry, hs]
    | none =>
      cases hf : w.FactoryContainer k with
      | none => simp [Reentrant.Get, Get, World.registry, hs, hf]
      | some f => simp [Reentrant.Get, Get, World.registry, hs, hf, hsem]
  · cases hf : w.FactoryContainer k with
    | none => simp [Reentrant.Resolve, Resolve, World.registry, hf]
    | some f => simp [Reentrant.Resolve, Resolve, World.registry, hf, hsem]
  · simp only [Reentrant.ToFetchFunc, ToFetchFunc, World.registry, hsem]
    cases (c w.env).1 <;> exact ⟨rfl, rfl⟩

/-- For callbacks that act on the registry only, the loop over the map object
does to the registry what the loop of `Package` does, and leaves the gate
alone. -/
theorem closed_callbacks_agree
    (sem : Closures V E (FactoryFunc V E Env) (BootFunc V E Env) Env)
    (hsem : ∀ cb name w, sem.callBoot cb name w
      = ((cb name w.registry).1, w.withRegistry (cb name w.registry).2))
    (r : Nat) (m : GoMap (BootFunc V E Env)) :
    ∀ (order : List String) (w : World V (FactoryFunc V E Env) (BootFunc V E Env) Env),
      w.maps r = m →
      (Reentrant.rangeBoot sem r order w).1 = (rangeBoot m order w.registry).1 ∧
      (Reentrant.rangeBoot sem r order w).2.registry = (rangeBoot m order w.registry).2 ∧
      SameGate w (Reentrant.rangeBoot sem r order w).2 := by
  intro order
  induction order with
  | nil => intro w _; exact ⟨rfl, rfl, SameGate.refl w⟩
  | cons name rest ih =>
    intro w hw
    cases hm : m name with
    | none =>
      have hl : w.maps r name = none := by rw [hw]; exact hm
      simp only [Reentrant.rangeBoot, rangeBoot, hm, hl]
      exact ih w hw
    | some boot =>
      have hl : w.maps r name = some boot := by rw [hw]; exact hm
      simp only [Reentrant.rangeBoot, rangeBoot, hm, hl, hsem]
      cases hb : (boot name w.registry).1 with
      | error e => exact ⟨rfl, rfl, rfl, rfl, rfl, rfl⟩
      | ok u =>
        have h := ih (w.withRegistry (boot name w.registry).2) hw
        exact ⟨h.1, h.2.1, SameGate.trans ⟨rfl, rfl, rfl, rfl⟩ h.2.2⟩

/-! ## Parameters -/

/-- C1: `ToParameter(k, v)` never panics, and in the state it leaves
`Parameter(k)` returns exactly `v` without panicking and `HasParameter(k)` is
true, whatever the parameter store held for `k` before (last write wins). -/
theorem ToParameter_then_Parameter (s : State V E Env) (k : String) (v : V) :
    (ToParameter k v s).1 = .ok () ∧
    (Parameter k (ToParameter k v s).2).1 = .ok v ∧
    HasParameter k (ToParameter k v s).2 = true := by
  refine ⟨rfl, ?_, ?_⟩
  · simp [Parameter, ToParameter, GoMap.assign]
  · simp [HasParameter, ToParameter, GoMap.assign]

/-! ## Lookup precedence -/

/-- C2: `Get` prefers the singleton store.  When the singleton store maps `k`
to `a`, `Get(k)` returns `a` and leaves the whole state, the constructors'
environment included, as it was: whatever the factory store holds for `k` is
not invoked.  In particular after `ToFetch(k, a)` and `ToResolve(k, c)`, in
either order, `Get(k)` returns `a` and the environment is still the one from
before the three calls. -/
theorem Get_prefers_singleton (s : State V E Env) (k : String) (a : V)
    (c : FactoryFunc V E Env) (h : s.SingletonContainer k = some a) :
    Get k s = (.ok a, s) ∧
    (∀ s₀ : State V E Env,
      (Get k (ToResolve k c (ToFetch k a s₀).2).2).1 = .ok a ∧
      (Get k (ToResolve k c (ToFetch k a s₀).2).2).2.env = s₀.env ∧
      (Get k (ToFetch k a (ToResolve k c s₀).2).2).1 = .ok a ∧
      (Get k (ToFetch k a (ToResolve k c s₀).2).2).2.env = s₀.env) := by
  refine ⟨Get_of_singleton s k a h, ?_⟩
  intro s₀
  have h1 : (ToResolve k c (ToFetch k a s₀).2).2.SingletonContainer k = some a := by
    simp [ToResolve, ToFetch, GoMap.assign]
  have h2 : (ToFetch k a (ToResolve k c s₀).2).2.SingletonContainer k = some a := by
    simp [ToResolve, ToFetch, GoMap.assign]
  rw [Get_of_singleton _ k a h1, Get_of_singleton _ k a h2]
  exact ⟨rfl, rfl, rfl, rfl⟩

/-- Witness of C2 on `TestGetPrefersSingletonThenFactory`: the singleton
"singleton" wins over a factory returning "factory". -/
theorem Get_prefers_singleton_witness :
    (Get "name" (ToResolve "name" (fun e => (.ok "factory", e))
      (ToFetch "name" "singleton" (init () : State String Unit Unit)).2).2).1
      = .ok "singleton" :=
  ((Get_prefers_singleton
      (ToFetch "name" "singleton" (init () : State String Unit Unit)).2
      "name" "singleton" (fun e => (.ok "factory", e))
      (by simp [ToFetch, GoMap.assign])).2 (init ())).1

/-! ## Factories -/

/-- C3: `ToResolve` does not invoke the constructor and `Resolve` is never
memoized.  With the counting constructor registered under `k` and its counter
at 0, the first `Resolve(k)` returns 1 and the second returns 2.  For every
constructor `c` and every `n`, `n` successive `Resolve(k)` calls return, in
order, the results of `n` successive invocations of `c` and leave the
environment those `n` invocations leave; the three stores stay as `ToResolve`
left them. -/
theorem Resolve_not_memoized {R : Type} (s : State V E (Int × R)) (k : String)
    (box : Int → V) (h0 : s.env.1 = 0) :
    (ToResolve k (counter box) s).1 = .ok () ∧
    (ToResolve k (counter box) s).2.env = s.env ∧
    (Resolve k (ToResolve k (counter box) s).2).1 = .ok (box 1) ∧
    (Resolve k (Resolve k (ToResolve k (counter box) s).2).2).1 = .ok (box 2) ∧
    (∀ (W : Type) (s₀ : State V E W) (c : FactoryFunc V E W) (n : Nat),
      (ToResolve k c s₀).2.env = s₀.env ∧
      callTimes (Resolve k) n (ToResolve k c s₀).2 =
        ((callTimes c n s₀.env).1,
          { (ToResolve k c s₀).2 with env := (callTimes c n s₀.env).2 })) := by
  have hk : ∀ (W : Type) (t : State V E W) (c : FactoryFunc V E W),
      (ToResolve k c t).2.FactoryContainer k = some c := by
    intro W t c
    simp [ToResolve, GoMap.assign]
  have hk2 : (Resolve k (ToResolve k (counter box) s).2).2.FactoryContainer k
      = some (counter box) := by
    rw [Resolve_of_some _ k _ (hk _ s (counter box))]
    exact hk _ s (counter box)
  have e1 : (Resolve k (ToResolve k (counter box) s).2).2.env.1 = 1 := by
    rw [Resolve_of_some _ k _ (hk _ s (counter box))]
    show wrapInt (s.env.1 + 1) = 1
    rw [h0]
    exact wrapInt_one
  refine ⟨rfl, rfl, ?_, ?_, ?_⟩
  · rw [Resolve_of_some _ k _ (hk _ s (counter box))]
    show Except.ok (box (wrapInt (s.env.1 + 1))) = _
    rw [h0, wrapInt_one]
  · rw [Resolve_of_some _ k _ hk2]
    show Except.ok (box (wrapInt (_ + 1))) = _
    rw [e1, wrapInt_two]
  · intro W s₀ c n
    exact ⟨rfl, callTimes_Resolve k c n _ (hk W s₀ c)⟩

/-- Witness of C3 on `TestToResolveAndResolve`: a fresh registry, the counter
at 0, key "gen". -/
theorem Resolve_not_memoized_witness :
    (init ((0 : Int), ()) : State Int Unit (Int × Unit)).env.1 = 0 ∧
    (Resolve "gen" (ToResolve "gen" (counter id)
      (init ((0 : Int), ()) : State Int Unit (Int × Unit))).2).1 = .ok 1 ∧
    (Resolve "gen" (Resolve "gen" (ToResolve "gen" (counter id)
      (init ((0 : Int), ()) : State Int Unit (Int × Unit))).2).2).1 = .ok 2 :=
  ⟨rfl,
    (Resolve_not_memoized
      (init ((0 : Int), ()) : State Int Unit (Int × Unit)) "gen" id rfl).2.2.1,
    (Resolve_not_memoized
      (init ((0 : Int), ()) : State Int Unit (Int × Unit)) "gen" id rfl).2.2.2.1⟩

/-! ## Singletons -/

/-- C4: `ToFetchFunc` is eager and caches.  When the constructor `c` returns
`r`, `ToFetchFunc(k, c)` returns, stores `r` as the singleton of `k` and
leaves the environment one invocation of `c` leaves; any number of `Fetch(k)`
calls afterwards all return `r` and change nothing.  On a constructor that
tallies its invocations the tally goes up by exactly one at registration and
stays there through any number of `Fetch(k)` calls. -/
theorem ToFetchFunc_eager_cached (s : State V E Env) (k : String)
    (c : FactoryFunc V E Env) (r : V) (h : (c s.env).1 = .ok r) :
    ToFetchFunc k c s =
      (.ok (), { s with SingletonContainer := s.SingletonContainer.assign k r,
                        env := (c s.env).2 }) ∧
    (∀ n : Nat, callTimes (Fetch k) n (ToFetchFunc k c s).2 =
      (List.replicate n (.ok r), (ToFetchFunc k c s).2)) ∧
    (∀ (t : State V E (Env × Nat)),
      (ToFetchFunc k (counted c) t).2.env.2 = t.env.2 + 1 ∧
      ∀ n : Nat,
        (callTimes (Fetch k) n (ToFetchFunc k (counted c) t).2).2.env.2 = t.env.2 + 1) := by
  have hstep : ToFetchFunc k c s =
      (.ok (), { s with SingletonContainer := s.SingletonContainer.assign k r,
                        env := (c s.env).2 }) := by
    simp [ToFetchFunc, h]
  have hcount : ∀ t : State V E (Env × Nat),
      (ToFetchFunc k (counted c) t).2.env.2 = t.env.2 + 1 := by
    intro t
    simp only [ToFetchFunc, counted]
    cases (c t.env.1).1 <;> rfl
  refine ⟨hstep, ?_, ?_⟩
  · intro n
    apply callTimes_const
    apply Fetch_of_some
    rw [hstep]
    simp [GoMap.assign]
  · intro t
    refine ⟨hcount t, ?_⟩
    intro n
    rw [callTimes_state (Fetch k) (fun u => Fetch_state u k)]
    exact hcount t

/-- Witness of C4 on `TestToFetchFunc`: the constructor returning "ok",
registered under "now" in a fresh registry, then fetched three times. -/
theorem ToFetchFunc_eager_cached_witness :
    callTimes (Fetch "now") 3
      (ToFetchFunc "now" (fun e => (.ok "ok", e)) (init () : State String Unit Unit)).2 =
      ([.ok "ok", .ok "ok", .ok "ok"],
        (ToFetchFunc "now" (fun e => (.ok "ok", e)) (init () : State String Unit Unit)).2) :=
  (ToFetchFunc_eager_cached (init () : State String Unit Unit) "now"
    (fun e => (.ok "ok", e)) "ok" rfl).2.1 3

/-- C10: `ToFetch(k, v)` never panics, and in the state it leaves `Fetch(k)`
returns exactly `v` without panicking and `CanFetch(k)` is true, whatever the
singleton store held for `k` before (the previous singleton is overwritten). -/
theorem ToFetch_then_Fetch (s : State V E Env) (k : String) (v : V) :
    (ToFetch k v s).1 = .ok () ∧
    (Fetch k (ToFetch k v s).2).1 = .ok v ∧
    CanFetch k (ToFetch k v s).2 = true := by
  refine ⟨rfl, ?_, ?_⟩
  · simp [Fetch, ToFetch, GoMap.assign]
  · simp [CanFetch, ToFetch, GoMap.assign]

/-! ## Missing keys -/

/-- C5: each single-store getter panics exactly when its key is absent from
its own store.  `Parameter(k)` panics iff `k` is not in the parameter store,
`Fetch(k)` panics iff `k` is not in the singleton store, and, the constructor
stored for `k` not panicking, `Resolve(k)` panics iff `k` is not in the
factory store.  The outcome of each getter is the same in any two states that
agree on its own store (and, for `Resolve`, on the environment), so the other
two stores make no difference. -/
theorem getters_panic_iff_absent (s : State V E Env) (k : String)
    (hc : ∀ c, s.FactoryContainer k = some c → panicked (c s.env) = false) :
    (panicked (Parameter k s) = true ↔ s.ParametersContainer k = none) ∧
    (panicked (Fetch k s) = true ↔ s.SingletonContainer k = none) ∧
    (panicked (Resolve k s) = true ↔ s.FactoryContainer k = none) ∧
    (∀ t : State V E Env, t.ParametersContainer = s.ParametersContainer →
      (Parameter k t).1 = (Parameter k s).1) ∧
    (∀ t : State V E Env, t.SingletonContainer = s.SingletonContainer →
      (Fetch k t).1 = (Fetch k s).1) ∧
    (∀ t : State V E Env, t.FactoryContainer = s.FactoryContainer → t.env = s.env →
      (Resolve k t).1 = (Resolve k s).1) := by
  refine ⟨?_, ?_, ?_, ?_, ?_, ?_⟩
  · unfold Parameter
    cases s.ParametersContainer k <;> simp [panicked]
  · unfold Fetch
    cases s.SingletonContainer k <;> simp [panicked]
  · cases hf : s.FactoryContainer k with
    | none => simp [Resolve, hf, panicked]
    | some c =>
      have h1 := hc c hf
      rw [Resolve_of_some s k c hf]
      simp only [panicked] at h1 ⊢
      simp [h1]
  · intro t ht
    simp [Parameter, ht]
    cases s.ParametersContainer k <;> rfl
  · intro t ht
    simp [Fetch, ht]
    cases s.SingletonContainer k <;> rfl
  · intro t ht he
    simp [Resolve, ht, he]
    cases s.FactoryContainer k <;> rfl

/-- Witness of C5 on the registry of `TestHasAndCanChecks` at key "f", which
is in the factory store only and whose constructor returns 2. -/
theorem getters_panic_iff_absent_witness :
    (∀ c, testRegistry.FactoryContainer "f" = some c →
      panicked (c testRegistry.env) = false) ∧
    (panicked (Fetch "f" testRegistry) = true ↔
      testRegistry.SingletonContainer "f" = none) ∧
    (panicked (Resolve "f" testRegistry) = true ↔
      testRegistry.FactoryContainer "f" = none) :=
  have hc : ∀ c, testRegistry.FactoryContainer "f" = some c →
      panicked (c testRegistry.env) = false := by
    intro c h
    have h2 : (fun e => (Except.ok 2, e)) = c := by
      simpa [testRegistry, ToParameter, ToResolve, ToFetch, GoMap.assign] using h
    subst h2
    rfl
  ⟨hc, (getters_panic_iff_absent testRegistry "f" hc).2.1,
    (getters_panic_iff_absent testRegistry "f" hc).2.2.1⟩

/-- C6: `Get` panics exactly when the key is in neither the singleton store
nor the factory store, the constructor stored for the key not panicking
itself. -/
theorem Get_panics_iff_absent (s : State V E Env) (k : String)
    (hc : ∀ c, s.FactoryContainer k = some c → panicked (c s.env) = false) :
    (panicked (Get k s) = true ↔
      (s.SingletonContainer k = none ∧ s.FactoryContainer k = none)) ∧
    (panicked (Get k s) = true ↔ (CanFetch k s = false ∧ CanResolve k s = false)) := by
  have key : panicked (Get k s) = true ↔
      (s.SingletonContainer k = none ∧ s.FactoryContainer k = none) := by
    cases hs : s.SingletonContainer k with
    | some v => simp [Get_of_singleton s k v hs, panicked]
    | none =>
      cases hf : s.FactoryContainer k with
      | none => simp [Get, hs, hf, panicked]
      | some c =>
        have h1 := hc c hf
        rw [Get_of_factory s k c hs hf]
        simp only [panicked] at h1 ⊢
        simp [h1]
  refine ⟨key, ?_⟩
  rw [key]
  simp [CanFetch, CanResolve]

/-- Witness of C6 on the registry of `TestHasAndCanChecks` at key "f": the
factory is there, so `Get` does not panic. -/
theorem Get_panics_iff_absent_witness :
    (∀ c, testRegistry.FactoryContainer "f" = some c →
      panicked (c testRegistry.env) = false) ∧
    (panicked (Get "f" testRegistry) = true ↔
      (testRegistry.SingletonContainer "f" = none ∧
        testRegistry.FactoryContainer "f" = none)) :=
  have hc : ∀ c, testRegistry.FactoryContainer "f" = some c →
      panicked (c testRegistry.env) = false := by
    intro c h
    have h2 : (fun e => (Except.ok 2, e)) = c := by
      simpa [testRegistry, ToParameter, ToResolve, ToFetch, GoMap.assign] using h
    subst h2
    rfl
  ⟨hc, (Get_panics_iff_absent testRegistry "f" hc).1⟩

/-! ## Presence checks and reset -/

/-- C8: `Reset` empties all three stores: it returns, and afterwards `Has(k)`,
`HasParameter(k)`, `CanFetch(k)` and `CanResolve(k)` are all false for every
key `k`. -/
theorem Reset_empties (s : State V E Env) (k : String) :
    (Reset s).1 = .ok () ∧
    Has k (Reset s).2 = false ∧
    HasParameter k (Reset s).2 = false ∧
    CanFetch k (Reset s).2 = false ∧
    CanResolve k (Reset s).2 = false := by
  simp [Reset, Has, HasParameter, CanFetch, CanResolve, GoMap.make]

/-- C9: `Has` is the disjunction of the three presence checks:
`Has(k) = CanFetch(k) || CanResolve(k) || HasParameter(k)`, so `Has(k)` is
true exactly when `k` is in the singleton store or the factory store or the
parameter store. -/
theorem Has_eq_disjunction (s : State V E Env) (k : String) :
    Has k s = (CanFetch k s || CanResolve k s || HasParameter k s) ∧
    (Has k s = true ↔
      ((∃ v, s.SingletonContainer k = some v) ∨
        (∃ c, s.FactoryContainer k = some c) ∨
        (∃ v, s.ParametersContainer k = some v))) := by
  have h : Has k s = (CanFetch k s || CanResolve k s || HasParameter k s) := by
    simp only [Has, CanFetch, CanResolve, HasParameter]
    cases (s.SingletonContainer k).isSome <;>
      cases (s.FactoryContainer k).isSome <;>
        cases (s.ParametersContainer k).isSome <;> rfl
  refine ⟨h, ?_⟩
  rw [h]
  simp [CanFetch, CanResolve, HasParameter, Option.isSome_iff_exists, or_assoc]

/-! ## Independence of the stores -/

/-- C11: the three stores are independent namespaces and a write is local to
one key.  `ToParameter(k, _)` leaves the singleton and factory stores as they
were, `ToFetch(k, _)` (and `ToFetchFunc(k, _)`) the parameter and factory
stores, `ToResolve(k, _)` the parameter and singleton stores, and each of the
three leaves the entry of every other key `k'` of its own store as it was.
So after the three writes under one key `k`, `k` holds three entries at once:
`Parameter(k)` returns the parameter, `Fetch(k)` the singleton, and the
factory store holds the constructor. -/
theorem stores_independent (s : State V E Env) (k k' : String) (v : V)
    (c : FactoryFunc V E Env) (hne : k' ≠ k) :
    ((ToParameter k v s).2.SingletonContainer = s.SingletonContainer ∧
      (ToParameter k v s).2.FactoryContainer = s.FactoryContainer) ∧
    ((ToFetch k v s).2.ParametersContainer = s.ParametersContainer ∧
      (ToFetch k v s).2.FactoryContainer = s.FactoryContainer) ∧
    ((ToFetchFunc k c s).2.ParametersContainer = s.ParametersContainer ∧
      (ToFetchFunc k c s).2.FactoryContainer = s.FactoryContainer) ∧
    ((ToResolve k c s).2.ParametersContainer = s.ParametersContainer ∧
      (ToResolve k c s).2.SingletonContainer = s.SingletonContainer) ∧
    (ToParameter k v s).2.ParametersContainer k' = s.ParametersContainer k' ∧
    (ToFetch k v s).2.SingletonContainer k' = s.SingletonContainer k' ∧
    (ToResolve k c s).2.FactoryContainer k' = s.FactoryContainer k' ∧
    (∀ v₁ v₂ : V,
      (Parameter k (ToResolve k c (ToFetch k v₂ (ToParameter k v₁ s).2).2).2).1 = .ok v₁ ∧
      (Fetch k (ToResolve k c (ToFetch k v₂ (ToParameter k v₁ s).2).2).2).1 = .ok v₂ ∧
      (ToResolve k c (ToFetch k v₂ (ToParameter k v₁ s).2).2).2.FactoryContainer k
        = some c) := by
  refine ⟨⟨rfl, rfl⟩, ⟨rfl, rfl⟩, ?_, ⟨rfl, rfl⟩, ?_, ?_, ?_, ?_⟩
  · simp only [ToFetchFunc]
    cases (c s.env).1 <;> exact ⟨rfl, rfl⟩
  · exact GoMap.assign_other _ k k' v hne
  · exact GoMap.assign_other _ k k' v hne
  · exact GoMap.assign_other _ k k' c hne
  · intro v₁ v₂
    simp [Parameter, Fetch, ToResolve, ToFetch, ToParameter, GoMap.assign]

/-- Witness of C11 on the registry of `TestHasAndCanChecks`: a singleton
written under "p" leaves the singleton "s" and the parameter "p" alone. -/
theorem stores_independent_witness :
    "s" ≠ "p" ∧
    (ToFetch "p" 7 testRegistry).2.SingletonContainer "s"
      = testRegistry.SingletonContainer "s" ∧
    (ToFetch "p" 7 testRegistry).2.ParametersContainer
      = testRegistry.ParametersContainer :=
  ⟨by decide,
    (stores_independent testRegistry "p" "s" 7 (fun e => (.ok 0, e)) (by decide)).2.2.2.2.2.1,
    (stores_independent testRegistry "p" "s" 7 (fun e => (.ok 0, e)) (by decide)).2.1.1⟩

/-! ## The bootstrap gate -/

/-- C12: `Boot` is idempotent once the gate is set.  In every state in which
`Booted()` is true, `Boot()` returns and changes nothing, and so does any
number of `Boot()` calls in a row: the flag stays true and
`DependencyInjection` keeps exactly its entries.  A callback registered after
a first `Boot()` on a reset gate is still there after any number of further
`Boot()` calls. -/
theorem Boot_idempotent (p : Package V E Env) (h : Booted p = true) :
    Boot p = (.ok (), p) ∧
    (∀ n : Nat, callTimes Boot n p = (List.replicate n (.ok ()), p)) ∧
    (∀ (q : Package V E Env) (name : String) (cb : BootFunc V E Env) (n : Nat),
      (register name cb (Boot (ResetBootstrap q).2).2).1 = .ok () ∧
      registered name
        (callTimes Boot n (register name cb (Boot (ResetBootstrap q).2).2).2).2
        = some cb) := by
  have hb : ∀ r : Package V E Env, Booted r = true → Boot r = (.ok (), r) := by
    intro r hr
    simp only [Booted] at hr
    simp [Boot, hr]
  refine ⟨hb p h, fun n => callTimes_const Boot p _ (hb p h) n, ?_⟩
  intro q name cb n
  have hr : Booted (register name cb (Boot (ResetBootstrap q).2).2).2 = true := by
    simp [Booted, register, Boot, ResetBootstrap]
  refine ⟨by simp [register, Boot, ResetBootstrap], ?_⟩
  rw [callTimes_const Boot _ _ (hb _ hr) n]
  simp [registered, register, Boot, ResetBootstrap, GoMap.assign]

/-- Witness of C12 on `TestBootInitializesOnce`: the gate with its callbacks
registered is booted, and a further `Boot()` leaves it as it is. -/
theorem Boot_idempotent_witness :
    Booted testGate = true ∧ (Boot testGate).2 = testGate :=
  ⟨rfl, congrArg Prod.snd (Boot_idempotent testGate rfl).1⟩

/-- C13: `Boot` on a gate that is not initialized allocates an empty mapping
and sets the flag.  In every state in which `Booted()` is false, `Boot()`
returns, and afterwards `Booted()` is true and `DependencyInjection` is a
non-nil map with no entry, whatever the mapping held before; the registry is
not touched. -/
theorem Boot_initializes (p : Package V E Env) (h : Booted p = false) :
    (Boot p).1 = .ok () ∧
    Booted (Boot p).2 = true ∧
    (Boot p).2.DependencyInjection = some GoMap.make ∧
    (Boot p).2.DependencyInjection ≠ none ∧
    (∀ name : String, registered name (Boot p).2 = none) ∧
    (Boot p).2.registry = p.registry := by
  simp only [Booted] at h
  simp [Boot, h, Booted, registered, GoMap.make]

/-- Witness of C13: a gate whose flag is false while its mapping holds
entries; `Boot()` replaces the mapping by an empty one. -/
theorem Boot_initializes_witness :
    Booted ({ testGate with initOnce := false } : Package Int Unit (List (String × String)))
      = false ∧
    Booted (Boot ({ testGate with initOnce := false } :
      Package Int Unit (List (String × String)))).2 = true ∧
    registered "one" (Boot ({ testGate with initOnce := false } :
      Package Int Unit (List (String × String)))).2 = none :=
  ⟨rfl,
    (Boot_initializes ({ testGate with initOnce := false } :
      Package Int Unit (List (String × String))) rfl).2.1,
    (Boot_initializes ({ testGate with initOnce := false } :
      Package Int Unit (List (String × String))) rfl).2.2.2.2.1 "one"⟩

/-- C15: `ResetBootstrap` and `Reset` are distinct and do not touch each
other's state.  After `ResetBootstrap()` the flag is false, the callback
mapping is nil and has no entry, and the registry (parameter, singleton and
factory stores) is as before.  After `Reset()`, run in the whole package
state, the flag and the callback mapping are as before. -/
theorem resets_are_separate (p : Package V E Env) :
    (ResetBootstrap p).1 = .ok () ∧
    Booted (ResetBootstrap p).2 = false ∧
    (ResetBootstrap p).2.DependencyInjection = none ∧
    (∀ name : String, registered name (ResetBootstrap p).2 = none) ∧
    (ResetBootstrap p).2.registry = p.registry ∧
    Booted (onRegistry Reset p).2 = Booted p ∧
    (onRegistry Reset p).2.DependencyInjection = p.DependencyInjection ∧
    (onRegistry Reset p).2.registry = (Reset p.registry).2 := by
  simp [ResetBootstrap, Booted, registered, onRegistry]

/-- C17: `DependencyInjectionBoot` propagates a callback's panic and skips
the rest of the pass.  With the keys yielded in the order `pre ++ k :: post`,
the callbacks of `pre` returning where they are invoked and the callback of
`k` panicking with `e`, the call panics with exactly `e` and leaves the
registry state in which the callbacks of `pre` and then that of `k` have run,
each with its own name: no callback of `post` is invoked.  When every
callback logs the name it was registered under and the name it receives
before it returns or panics, the log gains exactly the pairs `(name, name)`
of `pre` and of `k`. -/
theorem DependencyInjectionBoot_propagates (p : Package V E Env)
    (m : GoMap (BootFunc V E Env)) (pre post : List String) (k : String)
    (cb : BootFunc V E Env) (e : Panic E)
    (hm : p.DependencyInjection = some m) (ho : RangeOrder m (pre ++ k :: post))
    (hpre : ∀ a j b, pre = a ++ j :: b → ∀ cbj, m j = some cbj →
      (cbj j (invokeEach m a p.registry)).1 = .ok ())
    (hk : m k = some cb)
    (hfail : (cb k (invokeEach m pre p.registry)).1 = .error e) :
    DependencyInjectionBoot (pre ++ k :: post) p
      = (.error e, { p with registry := (cb k (invokeEach m pre p.registry)).2 }) ∧
    (pre ++ k :: post).Nodup ∧
    (∀ (q : Package V E (List (String × String)))
      (mq : GoMap (BootFunc V E (List (String × String)))) (f : String → Option E) (x : E),
      q.DependencyInjection = some mq → RangeOrder mq (pre ++ k :: post) →
      (∀ j cbj, mq j = some cbj → cbj = stamp j (f j)) →
      (∀ j, j ∈ pre → f j = none) → f k = some x →
      (DependencyInjectionBoot (pre ++ k :: post) q).1 = .error (.raised x) ∧
      (DependencyInjectionBoot (pre ++ k :: post) q).2.registry.env
        = q.registry.env ++ (pre ++ [k]).map (fun j => (j, j))) := by
  refine ⟨?_, ho.1, ?_⟩
  · simp only [DependencyInjectionBoot, hm]
    rw [rangeBoot_fail m k post cb e hk pre p.registry hpre hfail]
  · intro q mq f x hq hro hst hnone hx
    have hreg : ∀ j, j ∈ pre ++ k :: post → (mq j).isSome = true := fun j hj => (hro.2 j).1 hj
    have hkreg : (mq k).isSome = true := hreg k (by simp)
    obtain ⟨cbk, hcbk⟩ := Option.isSome_iff_exists.1 hkreg
    have hcbk2 : mq k = some (stamp k (some x)) := by
      rw [hcbk, hst k cbk hcbk, hx]
    have hpre2 : ∀ a j b, pre = a ++ j :: b → ∀ cbj, mq j = some cbj →
        (cbj j (invokeEach mq a q.registry)).1 = .ok () := by
      intro a j b hab cbj hcbj
      have hj : j ∈ pre := by rw [hab]; simp
      rw [hst j cbj hcbj, hnone j hj]
      rfl
    have hrun := rangeBoot_fail mq k post (stamp k (some x)) (.raised x) hcbk2 pre
      q.registry hpre2 rfl
    simp only [DependencyInjectionBoot, hq]
    rw [hrun]
    refine ⟨rfl, ?_⟩
    show (invokeEach mq pre q.registry).env ++ [(k, k)] = _
    rw [invokeEach_stamp mq f hst pre q.registry (fun j hj => hreg j (by simp [hj]))]
    simp

/-- Witness of C17: "one", "two", "three" yielded in that order, the callback
of "two" panicking: the drain panics with its panic, and the log holds "one"
and "two" but not "three". -/
theorem DependencyInjectionBoot_propagates_witness :
    (DependencyInjectionBoot (["one"] ++ "two" :: ["three"]) testGateFailing).1
      = .error (.raised ()) ∧
    (DependencyInjectionBoot (["one"] ++ "two" :: ["three"]) testGateFailing).2.registry.env
      = [("one", "one"), ("two", "two")] :=
  have hm : testGateFailing.DependencyInjection
      = some (((GoMap.make.assign "one" (stamp "one" none)).assign "two"
          (stamp "two" (some ()))).assign "three" (stamp "three" none)) :=
    rfl
  have ho : RangeOrder
      (((GoMap.make.assign "one" (stamp "one" (none : Option Unit))).assign "two"
          (stamp "two" (some ()))).assign "three" (stamp "three" none) :
        GoMap (BootFunc Int Unit (List (String × String))))
      (["one"] ++ "two" :: ["three"]) := by
    refine ⟨by decide, ?_⟩
    intro j
    by_cases h3 : j = "three"
    · simp [GoMap.assign, h3]
    · by_cases h2 : j = "two"
      · simp [GoMap.assign, h2]
      · by_cases h1 : j = "one"
        · simp [GoMap.assign, h1]
        · simp [GoMap.assign, GoMap.make, h1, h2, h3]
  have hpre : ∀ a j b, ["one"] = a ++ j :: b → ∀ cbj,
      (((GoMap.make.assign "one" (stamp "one" (none : Option Unit))).assign "two"
          (stamp "two" (some ()))).assign "three" (stamp "three" none) :
        GoMap (BootFunc Int Unit (List (String × String)))) j = some cbj →
      (cbj j (invokeEach (((GoMap.make.assign "one" (stamp "one" (none : Option Unit))).assign
          "two" (stamp "two" (some ()))).assign "three" (stamp "three" none))
        a testGateFailing.registry)).1 = .ok () := by
    intro a j b hab cbj hcb
    have hj : j = "one" := by
      rcases a with _ | ⟨x, a⟩
      · simp at hab
        exact hab.1.symm
      · simp at hab
    subst hj
    simp [GoMap.assign] at hcb
    subst hcb
    rfl
  ⟨congrArg Prod.fst
      (DependencyInjectionBoot_propagates testGateFailing _ ["one"] ["three"] "two"
        (stamp "two" (some ())) (.raised ()) hm ho hpre rfl rfl).1,
    congrArg (fun r => r.2.registry.env)
      (DependencyInjectionBoot_propagates testGateFailing _ ["one"] ["three"] "two"
        (stamp "two" (some ())) (.raised ()) hm ho hpre rfl rfl).1⟩

/-- C20: the gate invariant.  In every state reached from a state with the
flag false and the mapping nil by any sequence of `Boot()`,
`ResetBootstrap()`, `DependencyInjectionBoot()` (in any order of keys),
writes of callbacks into the mapping and calls into the registry, `Booted()`
is true exactly when `DependencyInjection` is not nil; hence writing a
callback into the mapping does not panic exactly when `Booted()` is true. -/
theorem gate_invariant (p : Package V E Env) (ops : List (GateOp V E Env))
    (hflag : p.initOnce = false) (hnil : p.DependencyInjection = none) :
    (Booted (runOps ops p) = true ↔ (runOps ops p).DependencyInjection ≠ none) ∧
    (∀ (name : String) (cb : BootFunc V E Env),
      panicked (register name cb (runOps ops p)) = false ↔ Booted (runOps ops p) = true) := by
  have h0 : GateInv p := by simp [GateInv, hflag, hnil]
  have h := runOps_inv ops p h0
  unfold GateInv at h
  have h1 : Booted (runOps ops p) = true ↔ (runOps ops p).DependencyInjection ≠ none := by
    rw [Booted, h, ← Option.ne_none_iff_isSome]
  refine ⟨h1, ?_⟩
  intro name cb
  rw [h1]
  cases hd : (runOps ops p).DependencyInjection <;> simp [register, panicked, hd]

/-- Witness of C20: from program start, boot, register "x", drain, reset and
boot again; the flag is set and the mapping is not nil. -/
theorem gate_invariant_witness :
    Booted (runOps
      [.callBoot, .assignEntry "x" (stamp "x" none), .callDependencyInjectionBoot ["x"],
        .callResetBootstrap, .callBoot]
      (Package.initial [] : Package Int Unit (List (String × String)))) = true ↔
    (runOps
      [.callBoot, .assignEntry "x" (stamp "x" none), .callDependencyInjectionBoot ["x"],
        .callResetBootstrap, .callBoot]
      (Package.initial [] : Package Int Unit (List (String × String)))).DependencyInjection
      ≠ none :=
  (gate_invariant (Package.initial [] : Package Int Unit (List (String × String)))
    [.callBoot, .assignEntry "x" (stamp "x" none), .callDependencyInjectionBoot ["x"],
      .callResetBootstrap, .callBoot] rfl rfl).1

/-! ## Presence and lookup -/

/-- C19: `Has(k)` being true does not guarantee that `Get(k)` returns.  In
every state in which `k` is in the parameter store and in neither the
singleton store nor the factory store, `Has(k)` is true and `Get(k)` panics.
In every state and for every key, `Get` returns only if `CanFetch` or
`CanResolve` holds. -/
theorem Has_does_not_imply_Get (s : State V E Env) (k : String) (v : V)
    (hp : s.ParametersContainer k = some v) (hs : s.SingletonContainer k = none)
    (hf : s.FactoryContainer k = none) :
    Has k s = true ∧
    panicked (Get k s) = true ∧
    (∀ (t : State V E Env) (j : String), panicked (Get j t) = false →
      CanFetch j t = true ∨ CanResolve j t = true) := by
  refine ⟨by simp [Has, hp, hs, hf], by simp [Get, hs, hf, panicked], ?_⟩
  intro t j hget
  cases hts : t.SingletonContainer j with
  | some a => left; simp [CanFetch, hts]
  | none =>
    cases htf : t.FactoryContainer j with
    | some c => right; simp [CanResolve, htf]
    | none => simp [Get, hts, htf, panicked] at hget

/-- Witness of C19 on the registry of `TestHasAndCanChecks`: "p" is a
parameter only, `Has("p")` is true and `Get("p")` panics. -/
theorem Has_does_not_imply_Get_witness :
    Has "p" testRegistry = true ∧ panicked (Get "p" testRegistry) = true :=
  have hp : testRegistry.ParametersContainer "p" = some 3 := by
    simp [testRegistry, ToParameter, GoMap.assign]
  have hs : testRegistry.SingletonContainer "p" = none := by
    simp [testRegistry, ToParameter, ToResolve, ToFetch, GoMap.assign, GoMap.make, init]
  have hf : testRegistry.FactoryContainer "p" = none := by
    simp [testRegistry, ToParameter, ToResolve, ToFetch, GoMap.assign, GoMap.make, init]
  ⟨(Has_does_not_imply_Get testRegistry "p" 3 hp hs hf).1,
    (Has_does_not_imply_Get testRegistry "p" 3 hp hs hf).2.1⟩

/-! ## Constructors that call back into the registry -/

/-- C7, as amended: `Get` through a factory invokes the constructor afresh
and does not cache.  When `k` is absent from the singleton store and the
factory store maps `k` to `c`, `Get(k)` is exactly one invocation of `c`: it
returns what `c` returns, which is what `Resolve(k)` returns in that state,
and leaves the state `c` leaves, with no write of its own.  So `k` is still
absent from the singleton store, and `CanFetch(k)` false, whenever `c` has
not itself stored a singleton under `k`, and the three stores are as before
whenever `c` has left them alone.  With a constructor that only counts, at 0,
two successive `Get(k)` calls return 1 then 2. -/
theorem Get_through_factory (sem : Closures V E F B Env) (w : World V F B Env)
    (k : String) (c : F)
    (hs : w.SingletonContainer k = none) (hf : w.FactoryContainer k = some c) :
    Reentrant.Get sem k w = sem.callFactory c w ∧
    Reentrant.Get sem k w = Reentrant.Resolve sem k w ∧
    ((sem.callFactory c w).2.SingletonContainer k = none →
      Reentrant.CanFetch k (Reentrant.Get sem k w).2 = false) ∧
    (SameStores w (sem.callFactory c w).2 → SameStores w (Reentrant.Get sem k w).2) ∧
    (∀ (R : Type) (semc : Closures V E F B (Int × R)) (u : World V F B (Int × R))
      (box : Int → V),
      u.SingletonContainer k = none → u.FactoryContainer k = some c →
      (∀ x, semc.callFactory c x =
        (.ok (box (wrapInt (x.env.1 + 1))),
          { x with env := (wrapInt (x.env.1 + 1), x.env.2) })) →
      u.env.1 = 0 →
      (Reentrant.Get semc k u).1 = .ok (box 1) ∧
      (Reentrant.Get semc k (Reentrant.Get semc k u).2).1 = .ok (box 2)) := by
  have hg : ∀ (W : Type) (s : Closures V E F B W) (x : World V F B W),
      x.SingletonContainer k = none → x.FactoryContainer k = some c →
      Reentrant.Get s k x = s.callFactory c x := by
    intro W s x hxs hxf
    simp [Reentrant.Get, hxs, hxf]
  refine ⟨hg _ sem w hs hf, ?_, ?_, ?_, ?_⟩
  · rw [hg _ sem w hs hf]
    simp [Reentrant.Resolve, hf]
  · intro h
    rw [hg _ sem w hs hf]
    simp [Reentrant.CanFetch, h]
  · intro h
    rw [hg _ sem w hs hf]
    exact h
  · intro R semc u box hus huf hc h0
    have g1 := hg _ semc u hus huf
    have hus2 : (Reentrant.Get semc k u).2.SingletonContainer k = none := by
      rw [g1, hc]; exact hus
    have huf2 : (Reentrant.Get semc k u).2.FactoryContainer k = some c := by
      rw [g1, hc]; exact huf
    have e1 : (Reentrant.Get semc k u).2.env.1 = 1 := by
      rw [g1, hc]
      show wrapInt (u.env.1 + 1) = 1
      rw [h0]
      exact wrapInt_one
    constructor
    · rw [g1, hc]
      show Except.ok (box (wrapInt (u.env.1 + 1))) = _
      rw [h0, wrapInt_one]
    · rw [hg _ semc _ hus2 huf2, hc]
      show Except.ok (box (wrapInt (_ + 1))) = _
      rw [e1, wrapInt_two]

/-- Witness of C7 as amended, on `TestGetFromFactoryAndMissing`: the factory
under "f" returns 2 and stores nothing, `Get` returns 2 and "f" is still no
singleton. -/
theorem Get_through_factory_witness :
    demoWorld.SingletonContainer "f" = none ∧
    (Reentrant.Get demoClosures "f" demoWorld).1 = .ok 2 ∧
    Reentrant.CanFetch "f" (Reentrant.Get demoClosures "f" demoWorld).2 = false :=
  have hs : demoWorld.SingletonContainer "f" = none := rfl
  have hf : demoWorld.FactoryContainer "f" = some (.returns 2) := by
    simp [demoWorld, Reentrant.register, Reentrant.Boot, Reentrant.ToResolve,
      World.initial, GoMap.assign]
  ⟨hs,
    congrArg Prod.fst (Get_through_factory demoClosures demoWorld "f" _ hs hf).1,
    (Get_through_factory demoClosures demoWorld "f" _ hs hf).2.2.1 hs⟩

/-- C7 as stated fails: the factory under "k" calls `ToFetch("k", 99)` and
returns 7.  "k" is absent from the singleton store and present in the factory
store, `Get("k")` returns 7, and afterwards `CanFetch("k")` is true and a
second `Get("k")` returns the singleton 99, not a second result of the
constructor. -/
theorem Get_through_factory_counterexample :
    demoSelfRegistering.SingletonContainer "k" = none ∧
    demoSelfRegistering.FactoryContainer "k" = some (.registers "k" 99 7) ∧
    (Reentrant.Get demoClosures "k" demoSelfRegistering).1 = .ok 7 ∧
    Reentrant.CanFetch "k" (Reentrant.Get demoClosures "k" demoSelfRegistering).2 = true ∧
    (Reentrant.Get demoClosures "k"
      (Reentrant.Get demoClosures "k" demoSelfRegistering).2).1 = .ok 99 := by
  refine ⟨rfl, ?_, ?_, ?_, ?_⟩ <;>
    simp [demoSelfRegistering, demoClosures, Reentrant.Get, Reentrant.CanFetch,
      Reentrant.ToResolve, Reentrant.ToFetch, World.initial, GoMap.assign, GoMap.make]

/-- C18, as amended: a failing constructor passes through unchanged and
nothing is registered for it.  When the constructor `c` panics with `e`,
`ToFetchFunc(k, c)` panics with exactly `e`, does not make its assignment and
leaves the state `c` left; `Resolve(k)` and `Get(k)`, when they reach `c` as
the constructor stored for `k`, panic with exactly `e` and leave the state
`c` left.  When `c` has left the three stores alone they are as before the
call, so `k` keeps the singleton it had or stays absent. -/
theorem failing_constructor_propagates (sem : Closures V E F B Env)
    (w : World V F B Env) (k : String) (c : F) (e : Panic E)
    (hfail : (sem.callFactory c w).1 = .error e) :
    Reentrant.ToFetchFunc sem k c w = (.error e, (sem.callFactory c w).2) ∧
    (w.FactoryContainer k = some c →
      Reentrant.Resolve sem k w = (.error e, (sem.callFactory c w).2)) ∧
    (w.SingletonContainer k = none → w.FactoryContainer k = some c →
      Reentrant.Get sem k w = (.error e, (sem.callFactory c w).2)) ∧
    (SameStores w (sem.callFactory c w).2 →
      SameStores w (Reentrant.ToFetchFunc sem k c w).2 ∧
      Reentrant.CanFetch k (Reentrant.ToFetchFunc sem k c w).2 = Reentrant.CanFetch k w ∧
      (w.FactoryContainer k = some c → SameStores w (Reentrant.Resolve sem k w).2) ∧
      (w.SingletonContainer k = none → w.FactoryContainer k = some c →
        SameStores w (Reentrant.Get sem k w).2)) := by
  have hcall : sem.callFactory c w = (.error e, (sem.callFactory c w).2) :=
    Prod.ext hfail rfl
  have h1 : Reentrant.ToFetchFunc sem k c w = (.error e, (sem.callFactory c w).2) := by
    simp [Reentrant.ToFetchFunc, hfail]
  have h2 : w.FactoryContainer k = some c →
      Reentrant.Resolve sem k w = (.error e, (sem.callFactory c w).2) := by
    intro hf
    simp only [Reentrant.Resolve, hf]
    exact hcall
  have h3 : w.SingletonContainer k = none → w.FactoryContainer k = some c →
      Reentrant.Get sem k w = (.error e, (sem.callFactory c w).2) := by
    intro hs hf
    simp only [Reentrant.Get, hs, hf]
    exact hcall
  refine ⟨h1, h2, h3, ?_⟩
  intro hsame
  refine ⟨?_, ?_, ?_, ?_⟩
  · rw [h1]; exact hsame
  · rw [h1]
    simp only [Reentrant.CanFetch]
    rw [hsame.2.1]
  · intro hf; rw [h2 hf]; exact hsame
  · intro hs hf; rw [h3 hs hf]; exact hsame

/-- Witness of C18 as amended: a constructor that only panics, registered
eagerly under "bad": the panic comes through and the stores are as
before. -/
theorem failing_constructor_propagates_witness :
    (Reentrant.ToFetchFunc demoClosures "bad" .panics demoWorld).1 = .error (.raised ()) ∧
    SameStores demoWorld (Reentrant.ToFetchFunc demoClosures "bad" .panics demoWorld).2 :=
  ⟨congrArg Prod.fst
      (failing_constructor_propagates demoClosures demoWorld "bad" .panics (.raised ()) rfl).1,
    ((failing_constructor_propagates demoClosures demoWorld "bad" .panics (.raised ())
      rfl).2.2.2 ⟨rfl, rfl, rfl⟩).1⟩

/-- C18 as stated fails: a constructor that calls `ToFetch("other", 2)` and
then panics.  `ToFetchFunc("new", c)` panics with the constructor's panic but
the singleton store has gained "other"; and with `c` stored under "k",
`Resolve("k")` and `Get("k")` panic and leave "other" = 2 behind as well. -/
theorem failing_constructor_propagates_counterexample :
    demoFailing.SingletonContainer "other" = none ∧
    (Reentrant.ToFetchFunc demoClosures "new" (.registersThenPanics "other" 2)
      demoFailing).1 = .error (.raised ()) ∧
    (Reentrant.ToFetchFunc demoClosures "new" (.registersThenPanics "other" 2)
      demoFailing).2.SingletonContainer "other" = some 2 ∧
    (Reentrant.Resolve demoClosures "k" demoFailing).1 = .error (.raised ()) ∧
    (Reentrant.Resolve demoClosures "k" demoFailing).2.SingletonContainer "other" = some 2 ∧
    (Reentrant.Get demoClosures "k" demoFailing).1 = .error (.raised ()) ∧
    (Reentrant.Get demoClosures "k" demoFailing).2.SingletonContainer "other" = some 2 := by
  refine ⟨rfl, ?_, ?_, ?_, ?_, ?_, ?_⟩ <;>
    simp [demoFailing, demoClosures, Reentrant.Get, Reentrant.Resolve, Reentrant.ToFetchFunc,
      Reentrant.ToResolve, Reentrant.ToFetch, World.initial, GoMap.assign, GoMap.make]

/-! ## Callbacks that call back into the gate -/

/-- C14, as amended: `DependencyInjectionBoot` invokes every registered
callback exactly once per call, with its own registration name, when the
callbacks neither panic nor touch the gate (the flag, `DependencyInjection`
and its map).  With the map at address `r`, its keys yielded in the order
`order`, and every callback returning and leaving the gate alone where it is
invoked, the call returns and leaves the state that the callbacks of `order`,
each invoked with its own name, leave one after the other; `order` holds
every registered name once and no other name; the gate and the entries of the
mapping are as before, so a second call (in any order, under the same
condition) invokes every callback once more.  On the nil mapping the call
returns and changes nothing.  When every callback only logs the name it was
registered under and the name it receives, the log gains exactly the pairs
`(name, name)` of `order`. -/
theorem drain_invokes_each (sem : Closures V E F B Env) (w : World V F B Env) (r : Nat)
    (order : List String)
    (hd : w.DependencyInjection = some r) (ho : RangeOrder (w.maps r) order)
    (hpass : ∀ a j b, order = a ++ j :: b → ∀ cb, w.maps r j = some cb →
      (sem.callBoot cb j (Reentrant.invokeEach sem (w.maps r) a w)).1 = .ok () ∧
      SameGate (Reentrant.invokeEach sem (w.maps r) a w)
        (sem.callBoot cb j (Reentrant.invokeEach sem (w.maps r) a w)).2) :
    Reentrant.DependencyInjectionBoot sem order w
      = (.ok (), Reentrant.invokeEach sem (w.maps r) order w) ∧
    (∀ name : String, order.count name = if (w.maps r name).isSome then 1 else 0) ∧
    SameGate w (Reentrant.DependencyInjectionBoot sem order w).2 ∧
    (∀ name : String,
      Reentrant.registered name (Reentrant.DependencyInjectionBoot sem order w).2
        = Reentrant.registered name w) ∧
    (∀ order₂ : List String, RangeOrder (w.maps r) order₂ →
      (∀ a j b, order₂ = a ++ j :: b → ∀ cb, w.maps r j = some cb →
        (sem.callBoot cb j (Reentrant.invokeEach sem (w.maps r) a
          (Reentrant.invokeEach sem (w.maps r) order w))).1 = .ok () ∧
        SameGate
          (Reentrant.invokeEach sem (w.maps r) a
            (Reentrant.invokeEach sem (w.maps r) order w))
          (sem.callBoot cb j (Reentrant.invokeEach sem (w.maps r) a
            (Reentrant.invokeEach sem (w.maps r) order w))).2) →
      Reentrant.DependencyInjectionBoot sem order₂
          (Reentrant.DependencyInjectionBoot sem order w).2
        = (.ok (),
            Reentrant.invokeEach sem (w.maps r) order₂
              (Reentrant.invokeEach sem (w.maps r) order w))) ∧
    (∀ (u : World V F B Env) (o : List String), u.DependencyInjection = none →
      Reentrant.DependencyInjectionBoot sem o u = (.ok (), u)) ∧
    (∀ (R : Type) (seml : Closures V E F B (R × List (String × String)))
      (u : World V F B (R × List (String × String))) (a : Nat) (o : List String),
      u.DependencyInjection = some a → RangeOrder (u.maps a) o →
      (∀ j b, u.maps a j = some b → ∀ name x,
        seml.callBoot b name x
          = (.ok (), { x with env := (x.env.1, x.env.2 ++ [(j, name)]) })) →
      (Reentrant.DependencyInjectionBoot seml o u).1 = .ok () ∧
      (Reentrant.DependencyInjectionBoot seml o u).2.env
        = (u.env.1, u.env.2 ++ o.map (fun j => (j, j)))) := by
  have hloop := drain_loop_ok sem r (w.maps r) order w rfl hpass
  have h1 : Reentrant.DependencyInjectionBoot sem order w
      = (.ok (), Reentrant.invokeEach sem (w.maps r) order w) := by
    simp only [Reentrant.DependencyInjectionBoot, hd]
    exact hloop.1
  have hgate : SameGate w (Reentrant.DependencyInjectionBoot sem order w).2 := by
    rw [h1]; exact hloop.2
  refine ⟨h1, ho.count_eq, hgate, ?_, ?_, ?_, ?_⟩
  · intro name
    simp only [Reentrant.registered]
    rw [hgate.2.1, hgate.2.2.1]
  · intro order₂ _ hpass₂
    rw [h1]
    have hd₂ : (Reentrant.invokeEach sem (w.maps r) order w).DependencyInjection = some r := by
      rw [hloop.2.2.1]; exact hd
    have hm₂ : (Reentrant.invokeEach sem (w.maps r) order w).maps r = w.maps r := by
      rw [hloop.2.2.2.1]
    simp only [Reentrant.DependencyInjectionBoot, hd₂]
    exact (drain_loop_ok sem r (w.maps r) order₂ _ hm₂ hpass₂).1
  · intro u o hu
    simp [Reentrant.DependencyInjectionBoot, hu]
  · intro R seml u a o hu hro hlog
    have hp : ∀ x j y, o = x ++ j :: y → ∀ cb, u.maps a j = some cb →
        (seml.callBoot cb j (Reentrant.invokeEach seml (u.maps a) x u)).1 = .ok () ∧
        SameGate (Reentrant.invokeEach seml (u.maps a) x u)
          (seml.callBoot cb j (Reentrant.invokeEach seml (u.maps a) x u)).2 := by
      intro x j y _ cb hcb
      rw [hlog j cb hcb]
      exact ⟨rfl, rfl, rfl, rfl, rfl⟩
    have hl := drain_loop_ok seml a (u.maps a) o u rfl hp
    simp only [Reentrant.DependencyInjectionBoot, hu]
    rw [hl.1]
    exact ⟨rfl, invokeEach_log seml (u.maps a) hlog o u (fun j hj => (hro.2 j).1 hj)⟩

/-- Witness of C14 as amended, on
`TestDependencyInjectionBootInvokesRegistered`: "one" and "two" registered
with logging callbacks and yielded as "two", "one"; the drain returns and the
log holds one entry for each, under its own name. -/
theorem drain_invokes_each_witness :
    (Reentrant.DependencyInjectionBoot demoClosures ["two", "one"] demoWorld).1 = .ok () ∧
    (Reentrant.DependencyInjectionBoot demoClosures ["two", "one"] demoWorld).2.env.2
      = [("two", "two"), ("one", "one")] ∧
    Reentrant.registered "one"
      (Reentrant.DependencyInjectionBoot demoClosures ["two", "one"] demoWorld).2
      = some (.logs "one") :=
  have hd : demoWorld.DependencyInjection = some 0 := rfl
  have hmap : ∀ j, demoWorld.maps 0 j
      = if j = "two" then some (.logs "two")
        else if j = "one" then some (.logs "one") else none := by
    intro j
    simp [demoWorld, Reentrant.register, Reentrant.Boot, Reentrant.ToResolve,
      World.initial, GoMap.assign, GoMap.make]
  have ho : RangeOrder (demoWorld.maps 0) ["two", "one"] := by
    refine ⟨by decide, ?_⟩
    intro j
    rw [hmap j]
    by_cases h2 : j = "two"
    · simp [h2]
    · by_cases h1 : j = "one"
      · simp [h1]
      · simp [h1, h2]
  have hlogs : ∀ j cb, demoWorld.maps 0 j = some cb → ∃ tag, cb = .logs tag := by
    intro j cb h
    rw [hmap j] at h
    by_cases h2 : j = "two"
    · simp [h2] at h
      exact ⟨"two", h.symm⟩
    · by_cases h1 : j = "one"
      · simp [h1] at h
        exact ⟨"one", h.symm⟩
      · simp [h1, h2] at h
  have hpass : ∀ a j b, ["two", "one"] = a ++ j :: b → ∀ cb, demoWorld.maps 0 j = some cb →
      (demoClosures.callBoot cb j
        (Reentrant.invokeEach demoClosures (demoWorld.maps 0) a demoWorld)).1 = .ok () ∧
      SameGate (Reentrant.invokeEach demoClosures (demoWorld.maps 0) a demoWorld)
        (demoClosures.callBoot cb j
          (Reentrant.invokeEach demoClosures (demoWorld.maps 0) a demoWorld)).2 := by
    intro a j b _ cb hcb
    obtain ⟨tag, rfl⟩ := hlogs j cb hcb
    exact ⟨rfl, rfl, rfl, rfl, rfl⟩
  have hrun := (drain_invokes_each demoClosures demoWorld 0 ["two", "one"] hd ho hpass).1
  have hreg := (drain_invokes_each demoClosures demoWorld 0 ["two", "one"] hd ho hpass).2.2.2.1
  ⟨congrArg Prod.fst hrun,
    (congrArg (fun x => x.2.env.2) hrun).trans (by
      simp [Reentrant.invokeEach, demoClosures, demoWorld, Reentrant.register,
        Reentrant.Boot, Reentrant.ToResolve, World.initial, GoMap.assign, GoMap.make]),
    (hreg "one").trans (by
      simp [Reentrant.registered, hd, hmap])⟩

/-- C14 as stated fails: the only callback, registered under "x", does not
panic and calls `ResetBootstrap()`.  The order "x" holds every key once and
the drain returns, having invoked the callback with its own name; but
afterwards the flag is false, the mapping is nil, "x" is no longer
registered, and a second drain invokes nothing: the log still holds the
single entry of the first. -/
theorem drain_invokes_each_counterexample :
    demoResetting.DependencyInjection = some 0 ∧
    Reentrant.Booted demoResetting = true ∧
    Reentrant.Booted
      (Reentrant.DependencyInjectionBoot demoClosures ["x"] demoResetting).2 = false ∧
    Reentrant.registered "x" demoResetting = some (.resets "x") ∧
    (demoClosures.callBoot (.resets "x") "x" demoResetting).1 = .ok () ∧
    (Reentrant.DependencyInjectionBoot demoClosures ["x"] demoResetting).1 = .ok () ∧
    (Reentrant.DependencyInjectionBoot demoClosures ["x"] demoResetting).2.env.2
      = [("x", "x")] ∧
    (Reentrant.DependencyInjectionBoot demoClosures ["x"] demoResetting).2.DependencyInjection
      = none ∧
    Reentrant.registered "x"
      (Reentrant.DependencyInjectionBoot demoClosures ["x"] demoResetting).2 = none ∧
    (Reentrant.DependencyInjectionBoot demoClosures ["x"]
      (Reentrant.DependencyInjectionBoot demoClosures ["x"] demoResetting).2).2.env.2
      = [("x", "x")] := by
  refine ⟨rfl, ?_, ?_, ?_, ?_, ?_, ?_, ?_, ?_, ?_⟩ <;>
    simp [demoResetting, demoClosures, Reentrant.DependencyInjectionBoot, Reentrant.Booted,
      Reentrant.rangeBoot, Reentrant.registered, Reentrant.register, Reentrant.Boot,
      Reentrant.ResetBootstrap, World.initial, GoMap.assign, GoMap.make]

end Container
